import Mathlib

/-!
# Todo_List: the `TodoApp` controller of `project/script.js`

A shallow embedding of the state held by `TodoApp` (the task array, the
current filter, the edit-session id, the text of the input box, the blob
last written to `localStorage`, what `render` last drew and the removals
queued with `setTimeout`) and of the methods that read or change it.

Conventions of the embedding:

* a JavaScript string is a Lean `String`; `trim` removes the ECMAScript
  `WhiteSpace` and `LineTerminator` code points from both ends;
* a task id is an `Int` (`Date.now()` is an integral number of milliseconds);
* the two clock reads of `addTask` (`Date.now()` and `new Date().toISOString()`)
  are arguments;
* a method mutating `this` is a function from the state to the new state;
* a callback handed to `setTimeout` is recorded in `timers` and run by
  `runTimer`;
* the document is no part of the state: `renderTask` writes `task.text` unescaped into
  `innerHTML` (script.js 196), so which elements the page holds does not follow from the
  tasks drawn. What `document.querySelector` finds, and which `blur` event a call of
  `focus()` sends to the listeners of `bindEvents`, are arguments of the methods that ask.
-/

namespace TodoList

/-! ## Strings -/

/-- ECMAScript `WhiteSpace` or `LineTerminator`: what `String.prototype.trim` strips. -/
def isJSWhiteSpace (c : Char) : Bool :=
  let n := c.toNat
  n == 0x09 || n == 0x0A || n == 0x0B || n == 0x0C || n == 0x0D || n == 0x20 ||
  n == 0xA0 || n == 0x1680 || (0x2000 ≤ n && n ≤ 0x200A) || n == 0x2028 ||
  n == 0x2029 || n == 0x202F || n == 0x205F || n == 0x3000 || n == 0xFEFF

/-- Strip the white space at both ends of a list of characters. -/
def trimChars (l : List Char) : List Char :=
  ((l.dropWhile isJSWhiteSpace).reverse.dropWhile isJSWhiteSpace).reverse

/-- The method `String.prototype.trim`. -/
def jsTrim (s : String) : String := ⟨trimChars s.data⟩

/-- Truthiness of a string: every string but the empty one. -/
def strTruthy (s : String) : Bool := !s.data.isEmpty

/-! ## Data model -/

/-- The object literal built by `addTask` (script.js 46-51). -/
structure Task where
  id : Int
  text : String
  completed : Bool
  createdAt : String
  deriving DecidableEq, Repr

/-- The fields of a `TodoApp` instance, with the parts of the page it reads back. -/
structure TodoApp where
  /-- field `this.tasks` -/
  tasks : List Task
  /-- field `this.currentFilter` -/
  currentFilter : String
  /-- field `this.editingTaskId`, `none` for `null` -/
  editingTaskId : Option Int
  /-- value of `this.taskInput.value` -/
  taskInput : String
  /-- the array last serialised under the key `tasks` by `saveToStorage` -/
  stored : Option (List Task)
  /-- the tasks `render` last handed to `renderTask` -/
  rendered : List Task
  /-- value of `this.taskCount.textContent` -/
  countText : String
  /-- ids whose removal callback is queued by `setTimeout` and has not run yet -/
  timers : List Int
  deriving DecidableEq, Repr

/-- The first element satisfying `p` is replaced by its image under `f`:
`const task = this.tasks.find(p); if (task) { mutate task }`. -/
def modifyFirst (p : Task → Bool) (f : Task → Task) : List Task → List Task
  | [] => []
  | t :: ts => if p t then f t :: ts else t :: modifyFirst p f ts

/-- The callback `task => task.id === id` of `find`. -/
def hasId (id : Int) (task : Task) : Bool := task.id == id

/-- The assignment `task.completed = !task.completed`. -/
def flipCompleted (task : Task) : Task := { task with completed := !task.completed }

/-- The assignment `task.text = text`. -/
def setText (text : String) (task : Task) : Task := { task with text := text }

/-! ## Queries -/

/-- Method `getFilteredTasks` (script.js 157-166). -/
def getFilteredTasks (app : TodoApp) : List Task :=
  if app.currentFilter = "completed" then
    app.tasks.filter (fun task => task.completed)
  else if app.currentFilter = "pending" then
    app.tasks.filter (fun task => !task.completed)
  else
    app.tasks

/-- Local `totalTasks` of `updateTaskCount` (script.js 169). -/
def totalTasks (app : TodoApp) : Nat := app.tasks.length

/-- Local `completedTasks` of `updateTaskCount` (script.js 170). -/
def completedTasks (app : TodoApp) : Nat :=
  (app.tasks.filter (fun task => task.completed)).length

/-- Local `pendingTasks` of `updateTaskCount` (script.js 171). -/
def pendingTasks (app : TodoApp) : Nat := totalTasks app - completedTasks app

/-- The noun after a count: `n === 1 ? 'task' : 'tasks'`. -/
def taskWord (n : Nat) : String := if n = 1 then "task" else "tasks"

/-- The text `updateTaskCount` writes into `taskCount` (script.js 173-186). -/
def updateTaskCount (app : TodoApp) : String :=
  if app.currentFilter = "completed" then
    toString (completedTasks app) ++ " completed " ++ taskWord (completedTasks app)
  else if app.currentFilter = "pending" then
    toString (pendingTasks app) ++ " pending " ++ taskWord (pendingTasks app)
  else
    toString (totalTasks app) ++ " " ++ taskWord (totalTasks app)

/-! ## Commands -/

/-- Method `render` (script.js 216-228): redraw the list from `getFilteredTasks`, then the count. -/
def render (app : TodoApp) : TodoApp :=
  { app with rendered := getFilteredTasks app, countText := updateTaskCount app }

/-- Method `saveToStorage` (script.js 230-232). -/
def saveToStorage (app : TodoApp) : TodoApp :=
  { app with stored := some app.tasks }

/-- Method `addTask` (script.js 42-57); `now` is `Date.now()`, `iso` is `new Date().toISOString()`. -/
def addTask (app : TodoApp) (now : Int) (iso : String) : TodoApp :=
  let text := jsTrim app.taskInput
  if !strTruthy text then app
  else
    let task : Task := { id := now, text := text, completed := false, createdAt := iso }
    let app := { app with tasks := task :: app.tasks }
    let app := saveToStorage app
    let app := { app with taskInput := "" }
    render app

/-- The callback `deleteTask` hands to `setTimeout` (script.js 63-67). -/
def removeTask (app : TodoApp) (id : Int) : TodoApp :=
  let app := { app with tasks := app.tasks.filter (fun task => task.id != id) }
  render (saveToStorage app)

/-- Method `deleteTask` (script.js 59-69); `found` tells whether
`document.querySelector` returned an element with this `data-id`. The class `removing` put on
it is no field of the state, and the removal itself is handed to `setTimeout` for 300 ms
later. -/
def deleteTask (app : TodoApp) (id : Int) (found : Bool) : TodoApp :=
  if found then { app with timers := app.timers ++ [id] }
  else app

/-- The oldest queued timer fires: its callback runs. -/
def runTimer (app : TodoApp) : TodoApp :=
  match app.timers with
  | [] => app
  | id :: rest => removeTask { app with timers := rest } id

/-- Method `toggleTask` (script.js 71-78). -/
def toggleTask (app : TodoApp) (id : Int) : TodoApp :=
  match app.tasks.find? (hasId id) with
  | some _ =>
    render (saveToStorage { app with tasks := modifyFirst (hasId id) flipCompleted app.tasks })
  | none => app

/-- Method `saveTaskEdit` (script.js 99-107). -/
def saveTaskEdit (app : TodoApp) (id : Int) (newText : String) : TodoApp :=
  let app :=
    match app.tasks.find? (hasId id) with
    | some _ =>
      if strTruthy (jsTrim newText) then
        saveToStorage
          { app with tasks := modifyFirst (hasId id) (setText (jsTrim newText)) app.tasks }
      else app
    | none => app
  render { app with editingTaskId := none }

/-- Method `cancelTaskEdit` (script.js 109-112). -/
def cancelTaskEdit (app : TodoApp) : TodoApp :=
  render { app with editingTaskId := none }

/-- What `taskElement.focus()` (script.js 88) sends to the `blur` listener of `bindEvents`
(script.js 39): nothing that passes the test of `handleTaskBlur` (no element loses the focus,
or one without the classes `task-text` and `editing`, or one outside every `.task-item`, where
the listener stops on `closest` before touching a field), or a `blur` on an element in edit
mode, with `parseInt` of the `data-id` of its `.task-item` (`none` for `NaN`) and its
`textContent`. -/
inductive FocusEffect where
  | noBlur
  | blur (taskId : Option Int) (textContent : String)
  deriving DecidableEq, Repr

/-- What `document.querySelector` gives `editTask` for the `.task-text` of the task: no
element, or an element, with what focusing it sets off. -/
inductive EditTarget where
  | missing
  | element (focus : FocusEffect)
  deriving DecidableEq, Repr

/-- Method `handleTaskBlur` (script.js 139-143) on an element in edit mode: `saveTaskEdit`
with the parsed id; for `NaN` no task is found by `find`, so only the tail of `saveTaskEdit`
runs. -/
def handleTaskBlur (app : TodoApp) (taskId : Option Int) (textContent : String) : TodoApp :=
  match taskId with
  | some id => saveTaskEdit app id textContent
  | none => render { app with editingTaskId := none }

/-- Method `editTask` (script.js 80-97): the slot is assigned first (83); when the element is
found, `focus()` (88) runs the `blur` listener before it returns; the calls on the selection
(91-95) change no field. -/
def editTask (app : TodoApp) (id : Int) (target : EditTarget) : TodoApp :=
  if app.editingTaskId = some id then app
  else
    let app := { app with editingTaskId := some id }
    match target with
    | .missing => app
    | .element .noBlur => app
    | .element (.blur taskId textContent) => handleTaskBlur app taskId textContent

/-- Method `setFilter` (script.js 146-155). -/
def setFilter (app : TodoApp) (filter : String) : TodoApp :=
  render { app with currentFilter := filter }

/-- The ids of a collection, in order. -/
def ids (ts : List Task) : List Int := ts.map (fun task => task.id)

/-! ## Loading: `JSON.parse(localStorage.getItem('tasks')) || []`

`JSON.parse` is the ECMAScript built-in; it is embedded as a lexer (one step per character)
followed by a pushdown recogniser (one step per token) for the JSON grammar of ECMA-404,
both total. -/

/-- The exception a built-in raises. -/
inductive JSError where
  | syntaxError
  deriving DecidableEq, Repr

/-- A JSON number as written: `(-1)^neg * mantissa * 10^exp10`. -/
structure JSNumber where
  neg : Bool
  mantissa : Nat
  exp10 : Int
  deriving DecidableEq, Repr

/-- A value built by `JSON.parse`; strings are lists of UTF-16 code units, the members of an
object are kept as written. -/
inductive JSValue where
  | null
  | bool (b : Bool)
  | num (n : JSNumber)
  | str (units : List Nat)
  | arr (items : List JSValue)
  | obj (members : List (List Nat × JSValue))

/-- The Number denoted by the literal is `+0` or `-0`: the mantissa is zero, or the exact
value is at most `2^(-1075)`, half the smallest subnormal double (round to nearest, ties to
even). -/
def JSNumber.isZero (n : JSNumber) : Bool :=
  n.mantissa == 0 ||
    (decide (n.exp10 < 0) && decide (n.mantissa * 2 ^ 1075 ≤ 10 ^ (-n.exp10).toNat))

/-- ECMAScript `ToBoolean` on a parsed value, the test made by `||`. -/
def JSValue.truthy : JSValue → Bool
  | .null => false
  | .bool b => b
  | .num n => !n.isZero
  | .str units => !units.isEmpty
  | .arr _ => true
  | .obj _ => true

/-- A JSON token. -/
inductive Token where
  | lbrace | rbrace | lbrack | rbrack | colon | comma
  | str (units : List Nat)
  | num (n : JSNumber)
  | lit (v : JSValue)

/-- Where the lexer stands inside a number. -/
inductive NumStage where
  | minus | zero | int | dot | frac | e | esign | exp
  deriving DecidableEq, Repr

/-- The number read so far. -/
structure NumAcc where
  stage : NumStage
  neg : Bool
  mantissa : Nat
  fracLen : Nat
  expNeg : Bool
  expAbs : Nat
  deriving DecidableEq, Repr

/-- The state of the lexer between two characters. -/
inductive LexState where
  | idle
  | inStr (acc : List Nat)
  | esc (acc : List Nat)
  | uni (acc : List Nat) (k : Nat) (v : Nat)
  | word (rest : List Char) (v : JSValue)
  | number (n : NumAcc)

/-- JSON white space: tab, line feed, carriage return, space. -/
def isJSONWhiteSpace (c : Char) : Bool :=
  c == '\t' || c == '\n' || c == '\r' || c == ' '

/-- The value of a decimal digit. -/
def digitVal (c : Char) : Option Nat :=
  if '0' ≤ c ∧ c ≤ '9' then some (c.toNat - '0'.toNat) else none

/-- The value of a hexadecimal digit. -/
def hexVal (c : Char) : Option Nat :=
  if '0' ≤ c ∧ c ≤ '9' then some (c.toNat - '0'.toNat)
  else if 'a' ≤ c ∧ c ≤ 'f' then some (c.toNat - 'a'.toNat + 10)
  else if 'A' ≤ c ∧ c ≤ 'F' then some (c.toNat - 'A'.toNat + 10)
  else none

/-- The UTF-16 code units of a character, pushed on a reversed accumulator. -/
def pushUnits (acc : List Nat) (c : Char) : List Nat :=
  if c.toNat < 0x10000 then c.toNat :: acc
  else (0xDC00 + (c.toNat - 0x10000) % 0x400) :: (0xD800 + (c.toNat - 0x10000) / 0x400) :: acc

/-- The number may end at this stage. -/
def NumStage.accepting : NumStage → Bool
  | .zero | .int | .frac | .exp => true
  | _ => false

/-- The token of a finished number. -/
def NumAcc.toToken (n : NumAcc) : Token :=
  .num { neg := n.neg, mantissa := n.mantissa,
         exp10 := (if n.expNeg then -(n.expAbs : Int) else (n.expAbs : Int)) - (n.fracLen : Int) }

/-- One more character of a number, or `none` when the character is not part of it. -/
def numStep (n : NumAcc) (c : Char) : Option NumAcc :=
  match n.stage with
  | .minus =>
    if c == '0' then some { n with stage := .zero }
    else (digitVal c).map fun d => { n with stage := .int, mantissa := d }
  | .zero =>
    if c == '.' then some { n with stage := .dot }
    else if c == 'e' || c == 'E' then some { n with stage := .e }
    else none
  | .int =>
    if c == '.' then some { n with stage := .dot }
    else if c == 'e' || c == 'E' then some { n with stage := .e }
    else (digitVal c).map fun d => { n with mantissa := n.mantissa * 10 + d }
  | .dot =>
    (digitVal c).map fun d =>
      { n with stage := .frac, mantissa := n.mantissa * 10 + d, fracLen := n.fracLen + 1 }
  | .frac =>
    if c == 'e' || c == 'E' then some { n with stage := .e }
    else (digitVal c).map fun d =>
      { n with mantissa := n.mantissa * 10 + d, fracLen := n.fracLen + 1 }
  | .e =>
    if c == '+' then some { n with stage := .esign }
    else if c == '-' then some { n with stage := .esign, expNeg := true }
    else (digitVal c).map fun d => { n with stage := .exp, expAbs := d }
  | .esign => (digitVal c).map fun d => { n with stage := .exp, expAbs := d }
  | .exp => (digitVal c).map fun d => { n with expAbs := n.expAbs * 10 + d }

/-- A character met between two tokens; `toks` is the reversed list of tokens so far. -/
def lexIdle (toks : List Token) (c : Char) : Except JSError (LexState × List Token) :=
  if isJSONWhiteSpace c then .ok (.idle, toks)
  else if c == '\x7b' then .ok (.idle, .lbrace :: toks)
  else if c == '\x7d' then .ok (.idle, .rbrace :: toks)
  else if c == '[' then .ok (.idle, .lbrack :: toks)
  else if c == ']' then .ok (.idle, .rbrack :: toks)
  else if c == ':' then .ok (.idle, .colon :: toks)
  else if c == ',' then .ok (.idle, .comma :: toks)
  else if c == '"' then .ok (.inStr [], toks)
  else if c == 't' then .ok (.word ['r', 'u', 'e'] (.bool true), toks)
  else if c == 'f' then .ok (.word ['a', 'l', 's', 'e'] (.bool false), toks)
  else if c == 'n' then .ok (.word ['u', 'l', 'l'] .null, toks)
  else if c == '-' then .ok (.number ⟨.minus, true, 0, 0, false, 0⟩, toks)
  else if c == '0' then .ok (.number ⟨.zero, false, 0, 0, false, 0⟩, toks)
  else match digitVal c with
    | some d => .ok (.number ⟨.int, false, d, 0, false, 0⟩, toks)
    | none => .error .syntaxError

/-- The character after a backslash inside a string. -/
def escapeVal (c : Char) : Option Nat :=
  if c == '"' then some 0x22
  else if c == '\\' then some 0x5C
  else if c == '/' then some 0x2F
  else if c == 'b' then some 0x08
  else if c == 'f' then some 0x0C
  else if c == 'n' then some 0x0A
  else if c == 'r' then some 0x0D
  else if c == 't' then some 0x09
  else none

/-- One character of the lexer. -/
def lexStep (st : LexState × List Token) (c : Char) : Except JSError (LexState × List Token) :=
  match st with
  | (.idle, toks) => lexIdle toks c
  | (.inStr acc, toks) =>
    if c == '"' then .ok (.idle, .str acc.reverse :: toks)
    else if c == '\\' then .ok (.esc acc, toks)
    else if c.toNat < 0x20 then .error .syntaxError
    else .ok (.inStr (pushUnits acc c), toks)
  | (.esc acc, toks) =>
    if c == 'u' then .ok (.uni acc 0 0, toks)
    else match escapeVal c with
      | some u => .ok (.inStr (u :: acc), toks)
      | none => .error .syntaxError
  | (.uni acc k v, toks) =>
    match hexVal c with
    | some d =>
      if k = 3 then .ok (.inStr ((v * 16 + d) :: acc), toks)
      else .ok (.uni acc (k + 1) (v * 16 + d), toks)
    | none => .error .syntaxError
  | (.word rest v, toks) =>
    match rest with
    | [] => .error .syntaxError
    | r :: rest =>
      if c == r then
        (if rest.isEmpty then .ok (.idle, .lit v :: toks) else .ok (.word rest v, toks))
      else .error .syntaxError
  | (.number n, toks) =>
    match numStep n c with
    | some n => .ok (.number n, toks)
    | none =>
      if n.stage.accepting then lexIdle (n.toToken :: toks) c
      else .error .syntaxError

/-- The end of the input: only between tokens or at the end of a complete number. -/
def lexEnd (st : LexState × List Token) : Except JSError (List Token) :=
  match st with
  | (.idle, toks) => .ok toks.reverse
  | (.number n, toks) =>
    if n.stage.accepting then .ok (n.toToken :: toks).reverse else .error .syntaxError
  | _ => .error .syntaxError

/-- The lexer over a list of characters. -/
def lexChars : LexState × List Token → List Char → Except JSError (List Token)
  | st, [] => lexEnd st
  | st, c :: cs =>
    match lexStep st c with
    | .ok st => lexChars st cs
    | .error e => .error e

/-- The tokens of a JSON text. -/
def tokenize (s : String) : Except JSError (List Token) := lexChars (.idle, []) s.data

/-- An array or object whose closing bracket has not been read. -/
inductive Frame where
  | arrF (items : List JSValue)
  | objF (members : List (List Nat × JSValue)) (key : List Nat)

/-- The state of the recogniser between two tokens. -/
inductive PState where
  | expectValue (stack : List Frame)
  | arrStart (stack : List Frame)
  | inArr (items : List JSValue) (stack : List Frame)
  | objStart (stack : List Frame)
  | objKey (members : List (List Nat × JSValue)) (stack : List Frame)
  | objColon (members : List (List Nat × JSValue)) (key : List Nat) (stack : List Frame)
  | inObj (members : List (List Nat × JSValue)) (stack : List Frame)
  | finished (v : JSValue)

/-- A complete value is handed to the innermost open array or object. -/
def deliver (v : JSValue) : List Frame → PState
  | [] => .finished v
  | .arrF items :: stack => .inArr (v :: items) stack
  | .objF members key :: stack => .inObj ((key, v) :: members) stack

/-- A token where a value must start. -/
def parseValueStart (stack : List Frame) : Token → Except JSError PState
  | .lbrack => .ok (.arrStart stack)
  | .lbrace => .ok (.objStart stack)
  | .str units => .ok (deliver (.str units) stack)
  | .num n => .ok (deliver (.num n) stack)
  | .lit v => .ok (deliver v stack)
  | _ => .error .syntaxError

/-- One token of the recogniser. -/
def parseStep (st : PState) (t : Token) : Except JSError PState :=
  match st, t with
  | .expectValue stack, t => parseValueStart stack t
  | .arrStart stack, .rbrack => .ok (deliver (.arr []) stack)
  | .arrStart stack, t => parseValueStart (.arrF [] :: stack) t
  | .inArr items stack, .comma => .ok (.expectValue (.arrF items :: stack))
  | .inArr items stack, .rbrack => .ok (deliver (.arr items.reverse) stack)
  | .objStart stack, .rbrace => .ok (deliver (.obj []) stack)
  | .objStart stack, .str key => .ok (.objColon [] key stack)
  | .objKey members stack, .str key => .ok (.objColon members key stack)
  | .objColon members key stack, .colon => .ok (.expectValue (.objF members key :: stack))
  | .inObj members stack, .comma => .ok (.objKey members stack)
  | .inObj members stack, .rbrace => .ok (deliver (.obj members.reverse) stack)
  | _, _ => .error .syntaxError

/-- The recogniser over a list of tokens. -/
def parseTokens : PState → List Token → Except JSError JSValue
  | .finished v, [] => .ok v
  | _, [] => .error .syntaxError
  | st, t :: ts =>
    match parseStep st t with
    | .ok st => parseTokens st ts
    | .error e => .error e

/-- The built-in `JSON.parse` on a string. -/
def jsonParse (s : String) : Except JSError JSValue :=
  match tokenize s with
  | .ok toks => parseTokens (.expectValue []) toks
  | .error e => .error e

/-- The initial value of `this.tasks` (script.js 4): `item` is what
`localStorage.getItem('tasks')` returned, `none` for `null`, which `JSON.parse` reads as the
text `null`. -/
def loadTasks (item : Option String) : Except JSError JSValue :=
  match jsonParse (item.getD "null") with
  | .ok v => .ok (if v.truthy then v else .arr [])
  | .error e => .error e

/-! ## Sample states -/

/-- A freshly constructed application over an empty store. -/
def emptyApp : TodoApp :=
  { tasks := [], currentFilter := "all", editingTaskId := none, taskInput := "",
    stored := none, rendered := [], countText := "0 tasks", timers := [] }

/-- One pending task with id 5 on screen, and `walk dog` typed in the input box. -/
def oneTaskApp : TodoApp :=
  { tasks := [⟨5, "buy milk", false, "1970-01-01T00:00:00.005Z"⟩],
    currentFilter := "all", editingTaskId := none, taskInput := " walk dog ",
    stored := some [⟨5, "buy milk", false, "1970-01-01T00:00:00.005Z"⟩],
    rendered := [⟨5, "buy milk", false, "1970-01-01T00:00:00.005Z"⟩],
    countText := "1 task", timers := [] }

/-- Two pending tasks on screen, the newer first, under the filter `all`. -/
def twoTaskApp : TodoApp :=
  { tasks := [⟨2, "walk dog", false, "1970-01-01T00:00:00.002Z"⟩,
              ⟨1, "buy milk", false, "1970-01-01T00:00:00.001Z"⟩],
    currentFilter := "all", editingTaskId := none, taskInput := "",
    stored := some [⟨2, "walk dog", false, "1970-01-01T00:00:00.002Z"⟩,
                    ⟨1, "buy milk", false, "1970-01-01T00:00:00.001Z"⟩],
    rendered := [⟨2, "walk dog", false, "1970-01-01T00:00:00.002Z"⟩,
                 ⟨1, "buy milk", false, "1970-01-01T00:00:00.001Z"⟩],
    countText := "2 tasks", timers := [] }

/-! ## Lemmas on strings -/

theorem string_ne_empty_iff (s : String) : s ≠ "" ↔ s.data ≠ [] := by
  constructor
  · intro h hd
    exact h (String.ext hd)
  · intro h hs
    exact h (by rw [hs])

theorem strTruthy_iff (s : String) : strTruthy s = true ↔ s ≠ "" := by
  rw [string_ne_empty_iff]
  cases h : s.data <;> simp [strTruthy, h]

theorem trimChars_of_all_white (l : List Char)
    (h : ∀ c ∈ l, isJSWhiteSpace c = true) : trimChars l = [] := by
  have h1 : l.dropWhile isJSWhiteSpace = [] := List.dropWhile_eq_nil_iff.mpr h
  simp [trimChars, h1]

theorem jsTrim_of_all_white (s : String)
    (h : ∀ c ∈ s.data, isJSWhiteSpace c = true) : jsTrim s = "" := by
  apply String.ext
  simp [jsTrim, trimChars_of_all_white s.data h]

/-! ## Lemmas on `modifyFirst` -/

theorem modifyFirst_length (p : Task → Bool) (f : Task → Task) (l : List Task) :
    (modifyFirst p f l).length = l.length := by
  induction l with
  | nil => rfl
  | cons t ts ih =>
    unfold modifyFirst
    split <;> simp [ih]

theorem modifyFirst_map {β : Type} (g : Task → β) (p : Task → Bool) (f : Task → Task)
    (hg : ∀ t, g (f t) = g t) (l : List Task) :
    (modifyFirst p f l).map g = l.map g := by
  induction l with
  | nil => rfl
  | cons t ts ih =>
    unfold modifyFirst
    split <;> simp [ih, hg]

theorem modifyFirst_find (p : Task → Bool) (f : Task → Task)
    (hp : ∀ t, p t = true → p (f t) = true) (l : List Task) :
    (modifyFirst p f l).find? p = (l.find? p).map f := by
  induction l with
  | nil => rfl
  | cons t ts ih =>
    unfold modifyFirst
    by_cases h : p t = true
    · simp [h, hp t h]
    · simp [h, ih]

theorem modifyFirst_twice (p : Task → Bool) (f g : Task → Task)
    (hp : ∀ t, p t = true → p (f t) = true) (l : List Task) :
    modifyFirst p g (modifyFirst p f l) = modifyFirst p (fun t => g (f t)) l := by
  induction l with
  | nil => rfl
  | cons t ts ih =>
    by_cases h : p t = true
    · simp [modifyFirst, h, hp t h]
    · simp [modifyFirst, h, ih]

theorem modifyFirst_fixed (p : Task → Bool) (f : Task → Task)
    (hf : ∀ t, f t = t) (l : List Task) : modifyFirst p f l = l := by
  induction l with
  | nil => rfl
  | cons t ts ih =>
    unfold modifyFirst
    split <;> simp [ih, hf]

theorem modifyFirst_getElem? (p : Task → Bool) (f : Task → Task) (l : List Task) (k : Nat) :
    (modifyFirst p f l)[k]? = if k = l.findIdx p then (l[k]?).map f else l[k]? := by
  induction l generalizing k with
  | nil => simp [modifyFirst]
  | cons t ts ih =>
    by_cases h : p t = true
    · cases k with
      | zero => simp [modifyFirst, h, List.findIdx_cons]
      | succ k => simp [modifyFirst, h, List.findIdx_cons]
    · cases k with
      | zero => simp [modifyFirst, h, List.findIdx_cons]
      | succ k => simp [modifyFirst, h, List.findIdx_cons, ih]

theorem modifyFirst_of_find_none (p : Task → Bool) (f : Task → Task) (l : List Task)
    (h : l.find? p = none) : modifyFirst p f l = l := by
  induction l with
  | nil => rfl
  | cons t ts ih =>
    by_cases ht : p t = true
    · simp [List.find?, ht] at h
    · have h2 : ts.find? p = none := by simpa [List.find?, ht] using h
      simp [modifyFirst, ht, ih h2]

theorem find_hasId_of_mem_ids (l : List Task) (i : Int) (h : i ∈ ids l) :
    ∃ t, l.find? (hasId i) = some t ∧ t.id = i := by
  induction l with
  | nil => simp [ids] at h
  | cons t ts ih =>
    by_cases ht : t.id = i
    · exact ⟨t, by simp [List.find?, hasId, ht], ht⟩
    · have h2 : i ∈ ids ts := by
        simp only [ids, List.map_cons, List.mem_cons] at h
        rcases h with h | h
        · exact absurd h.symm ht
        · exact h
      obtain ⟨u, hu, hi⟩ := ih h2
      have ht2 : hasId i t = false := by simpa [hasId] using ht
      exact ⟨u, by simp [List.find?, ht2, hu], hi⟩

theorem hasId_flipCompleted (i : Int) (t : Task) : hasId i (flipCompleted t) = hasId i t := rfl

theorem hasId_setText (i : Int) (s : String) (t : Task) : hasId i (setText s t) = hasId i t :=
  rfl

theorem flipCompleted_flipCompleted (t : Task) : flipCompleted (flipCompleted t) = t := by
  cases t
  simp [flipCompleted]

/-! ## Adding a task -/

/-- C1: when the trimmed input `s` is not empty, `addTask` raises the total by exactly one
and puts the new task (text `s`, not completed) in front of the tasks held before, which keep
their order; under the filter `all` this is the visible list. -/
theorem addTask_prepends (app : TodoApp) (now : Int) (iso : String)
    (hs : jsTrim app.taskInput ≠ "") :
    totalTasks (addTask app now iso) = totalTasks app + 1 ∧
    (addTask app now iso).tasks =
      { id := now, text := jsTrim app.taskInput, completed := false, createdAt := iso }
        :: app.tasks ∧
    getFilteredTasks (setFilter (addTask app now iso) "all") =
      { id := now, text := jsTrim app.taskInput, completed := false, createdAt := iso }
        :: app.tasks ∧
    (app.currentFilter = "all" →
      getFilteredTasks (addTask app now iso) =
        { id := now, text := jsTrim app.taskInput, completed := false, createdAt := iso }
          :: app.tasks) := by
  have ht : strTruthy (jsTrim app.taskInput) = true := (strTruthy_iff _).mpr hs
  refine ⟨?_, ?_, ?_, ?_⟩
  · simp [addTask, ht, totalTasks, render, saveToStorage]
  · simp [addTask, ht, render, saveToStorage]
  · simp [addTask, ht, getFilteredTasks, setFilter, render, saveToStorage]
  · intro hf
    simp [addTask, ht, getFilteredTasks, render, saveToStorage, hf]

theorem addTask_prepends_witness :
    jsTrim oneTaskApp.taskInput ≠ "" ∧
    totalTasks (addTask oneTaskApp 9 "t") = totalTasks oneTaskApp + 1 ∧
    getFilteredTasks (setFilter (addTask oneTaskApp 9 "t") "all") =
      [⟨9, "walk dog", false, "t"⟩, ⟨5, "buy milk", false, "1970-01-01T00:00:00.005Z"⟩] ∧
    totalTasks (addTask (setFilter oneTaskApp "completed") 9 "t") =
      totalTasks (setFilter oneTaskApp "completed") + 1 :=
  ⟨by decide, (addTask_prepends oneTaskApp 9 "t" (by decide)).1, by decide,
    (addTask_prepends (setFilter oneTaskApp "completed") 9 "t" (by decide)).1⟩

/-- C2: when the input is empty or holds white space only, `addTask` returns the state it
was given: no task is created, none is modified, the order is the same. -/
theorem addTask_blank_noop (app : TodoApp) (now : Int) (iso : String)
    (hw : ∀ c ∈ app.taskInput.data, isJSWhiteSpace c = true) :
    addTask app now iso = app := by
  have ht : jsTrim app.taskInput = "" := jsTrim_of_all_white _ hw
  simp [addTask, ht, strTruthy]

theorem addTask_blank_noop_witness :
    (∀ c ∈ ({ oneTaskApp with taskInput := " \t " } : TodoApp).taskInput.data,
      isJSWhiteSpace c = true) ∧
    addTask { oneTaskApp with taskInput := " \t " } 9 "t" =
      { oneTaskApp with taskInput := " \t " } :=
  ⟨by decide, addTask_blank_noop { oneTaskApp with taskInput := " \t " } 9 "t" (by decide)⟩

/-! ## The filtered view and the counts -/

theorem setFilter_tasks (app : TodoApp) (mode : String) :
    (setFilter app mode).tasks = app.tasks := rfl

theorem getFilteredTasks_setFilter (app : TodoApp) (mode : String) :
    getFilteredTasks (setFilter app mode) =
      getFilteredTasks { app with currentFilter := mode } := rfl

/-- C6: after `setFilter`, `getFilteredTasks` returns, for `completed`, exactly the tasks with
`completed = true`; for `pending`, exactly those with `completed = false`; for `all`, the whole
collection; always as a sublist of the collection (same relative order); and neither selecting
the filter nor asking for the view changes the collection. -/
theorem getFilteredTasks_selects (app : TodoApp) :
    getFilteredTasks (setFilter app "completed") =
      app.tasks.filter (fun task => task.completed) ∧
    getFilteredTasks (setFilter app "pending") =
      app.tasks.filter (fun task => !task.completed) ∧
    getFilteredTasks (setFilter app "all") = app.tasks ∧
    (∀ t, t ∈ getFilteredTasks (setFilter app "completed") ↔
      t ∈ app.tasks ∧ t.completed = true) ∧
    (∀ t, t ∈ getFilteredTasks (setFilter app "pending") ↔
      t ∈ app.tasks ∧ t.completed = false) ∧
    (∀ mode, (getFilteredTasks (setFilter app mode)).Sublist app.tasks ∧
      (setFilter app mode).tasks = app.tasks) := by
  refine ⟨?_, ?_, ?_, ?_, ?_, ?_⟩
  · simp [getFilteredTasks, setFilter, render]
  · simp [getFilteredTasks, setFilter, render]
  · simp [getFilteredTasks, setFilter, render]
  · intro t
    simp [getFilteredTasks, setFilter, render, List.mem_filter]
  · intro t
    simp [getFilteredTasks, setFilter, render, List.mem_filter]
  · intro mode
    refine ⟨?_, rfl⟩
    rw [getFilteredTasks_setFilter]
    unfold getFilteredTasks
    split
    · exact List.filter_sublist _
    · split
      · exact List.filter_sublist _
      · exact List.Sublist.refl _

/-- C10: the three numbers of `updateTaskCount` satisfy `total = completed + pending`, where
`total` is the length of the collection, `completed` counts the tasks with `completed = true`,
and `pending` (computed as `total - completed`) counts those with `completed = false`, which
is the length of the pending view. -/
theorem counts_total_eq (app : TodoApp) :
    totalTasks app = completedTasks app + pendingTasks app ∧
    totalTasks app = app.tasks.length ∧
    completedTasks app = app.tasks.countP (fun task => task.completed) ∧
    pendingTasks app = app.tasks.countP (fun task => !task.completed) ∧
    pendingTasks app = (getFilteredTasks (setFilter app "pending")).length := by
  have hsplit : app.tasks.length =
      (app.tasks.filter (fun task => task.completed)).length +
      (app.tasks.filter (fun task => !task.completed)).length := by
    generalize app.tasks = l
    induction l with
    | nil => rfl
    | cons t ts ih =>
      cases hc : t.completed <;> simp [List.filter, hc] <;> omega
  have hp : pendingTasks app = (app.tasks.filter (fun task => !task.completed)).length := by
    unfold pendingTasks totalTasks completedTasks
    omega
  refine ⟨?_, rfl, ?_, ?_, ?_⟩
  · rw [hp]
    exact hsplit
  · simp [completedTasks, List.countP_eq_length_filter]
  · rw [hp, List.countP_eq_length_filter]
  · rw [hp, (getFilteredTasks_selects app).2.1]

/-! ## Toggling -/

theorem toggleTask_tasks (app : TodoApp) (i : Int) :
    (toggleTask app i).tasks = modifyFirst (hasId i) flipCompleted app.tasks := by
  unfold toggleTask
  split
  · rfl
  · next h => exact (modifyFirst_of_find_none _ _ _ h).symm

/-- C3: for an id `i` of a task in the collection, one `toggleTask i` negates the
`completed` flag of that task, and a second `toggleTask i` gives back the collection as it
was before the two calls (so the flag is back at its original value). -/
theorem toggleTask_involution (app : TodoApp) (i : Int) (hi : i ∈ ids app.tasks) :
    ((toggleTask app i).tasks.find? (hasId i)).map (fun task => task.completed)
      = (app.tasks.find? (hasId i)).map (fun task => !task.completed) ∧
    ((toggleTask (toggleTask app i) i).tasks.find? (hasId i)).map (fun task => task.completed)
      = (app.tasks.find? (hasId i)).map (fun task => task.completed) ∧
    (toggleTask (toggleTask app i) i).tasks = app.tasks := by
  have hback : (toggleTask (toggleTask app i) i).tasks = app.tasks := by
    rw [toggleTask_tasks, toggleTask_tasks,
      modifyFirst_twice (hasId i) flipCompleted flipCompleted (fun t ht => ht)]
    exact modifyFirst_fixed _ _ flipCompleted_flipCompleted _
  refine ⟨?_, ?_, hback⟩
  · rw [toggleTask_tasks, modifyFirst_find (hasId i) flipCompleted (fun t ht => ht)]
    obtain ⟨t, ht, -⟩ := find_hasId_of_mem_ids _ _ hi
    simp [ht, flipCompleted]
  · rw [hback]

theorem toggleTask_involution_witness :
    (5 : Int) ∈ ids oneTaskApp.tasks ∧
    (((toggleTask oneTaskApp 5).tasks.find? (hasId 5)).map (fun task => task.completed)
      = (oneTaskApp.tasks.find? (hasId 5)).map (fun task => !task.completed) ∧
    ((toggleTask (toggleTask oneTaskApp 5) 5).tasks.find? (hasId 5)).map
        (fun task => task.completed)
      = (oneTaskApp.tasks.find? (hasId 5)).map (fun task => task.completed) ∧
    (toggleTask (toggleTask oneTaskApp 5) 5).tasks = oneTaskApp.tasks) :=
  ⟨by decide, toggleTask_involution oneTaskApp 5 (by decide)⟩

/-! ## Committing an edit -/

theorem getElem?_findIdx (p : Task → Bool) (l : List Task) :
    l[l.findIdx p]? = l.find? p := by
  induction l with
  | nil => rfl
  | cons t ts ih =>
    by_cases h : p t = true
    · simp [List.findIdx_cons, List.find?, h]
    · simp [List.findIdx_cons, List.find?, h, ih]

theorem saveTaskEdit_tasks (app : TodoApp) (i : Int) (newText : String) :
    (saveTaskEdit app i newText).tasks =
      if strTruthy (jsTrim newText) = true then
        modifyFirst (hasId i) (setText (jsTrim newText)) app.tasks
      else app.tasks := by
  unfold saveTaskEdit
  split
  · split <;> simp_all [render, saveToStorage]
  · next h =>
    simp only [render]
    split
    · exact (modifyFirst_of_find_none _ _ _ h).symm
    · rfl

theorem saveTaskEdit_editingTaskId (app : TodoApp) (i : Int) (newText : String) :
    (saveTaskEdit app i newText).editingTaskId = none := rfl

/-- C5: for an id `i` of a task in the collection, `saveTaskEdit i newText` always ends with
`editingTaskId` cleared; the ids, the `completed` flags, the creation stamps and the positions
of all tasks stay as they were; when `trim(newText)` is not empty the task found for `i` gets
exactly that text and every other position keeps its task; when `trim(newText)` is empty the
collection is unchanged. -/
theorem saveTaskEdit_commit (app : TodoApp) (i : Int) (newText : String)
    (hi : i ∈ ids app.tasks) :
    (saveTaskEdit app i newText).editingTaskId = none ∧
    ids (saveTaskEdit app i newText).tasks = ids app.tasks ∧
    (saveTaskEdit app i newText).tasks.map (fun task => task.completed) =
      app.tasks.map (fun task => task.completed) ∧
    (saveTaskEdit app i newText).tasks.map (fun task => task.createdAt) =
      app.tasks.map (fun task => task.createdAt) ∧
    (jsTrim newText ≠ "" →
      ((saveTaskEdit app i newText).tasks.find? (hasId i)).map (fun task => task.text) =
        some (jsTrim newText) ∧
      (saveTaskEdit app i newText).tasks[app.tasks.findIdx (hasId i)]? =
        (app.tasks.find? (hasId i)).map (setText (jsTrim newText)) ∧
      ∀ k, k ≠ app.tasks.findIdx (hasId i) →
        (saveTaskEdit app i newText).tasks[k]? = app.tasks[k]?) ∧
    (jsTrim newText = "" → (saveTaskEdit app i newText).tasks = app.tasks) := by
  refine ⟨rfl, ?_, ?_, ?_, ?_, ?_⟩
  · rw [saveTaskEdit_tasks]
    split
    · exact modifyFirst_map (fun task => task.id) (hasId i) (setText (jsTrim newText))
        (fun _ => rfl) _
    · rfl
  · rw [saveTaskEdit_tasks]
    split
    · exact modifyFirst_map (fun task => task.completed) (hasId i) (setText (jsTrim newText))
        (fun _ => rfl) _
    · rfl
  · rw [saveTaskEdit_tasks]
    split
    · exact modifyFirst_map (fun task => task.createdAt) (hasId i) (setText (jsTrim newText))
        (fun _ => rfl) _
    · rfl
  · intro hne
    have ht : strTruthy (jsTrim newText) = true := (strTruthy_iff _).mpr hne
    obtain ⟨t, hfind, -⟩ := find_hasId_of_mem_ids _ _ hi
    rw [saveTaskEdit_tasks, if_pos ht]
    refine ⟨?_, ?_, ?_⟩
    · rw [modifyFirst_find (hasId i) (setText (jsTrim newText)) (fun t ht => ht), hfind]
      rfl
    · rw [modifyFirst_getElem?, if_pos rfl, getElem?_findIdx]
    · intro k hk
      rw [modifyFirst_getElem?, if_neg hk]
  · intro he
    have ht : ¬ strTruthy (jsTrim newText) = true := by
      rw [strTruthy_iff]
      exact fun h => h he
    rw [saveTaskEdit_tasks, if_neg ht]

theorem saveTaskEdit_commit_witness :
    (5 : Int) ∈ ids oneTaskApp.tasks ∧
    jsTrim "  new text  " = "new text" ∧
    jsTrim "   " = "" ∧
    ((saveTaskEdit oneTaskApp 5 "  new text  ").tasks.find? (hasId 5)).map
        (fun task => task.text) = some (jsTrim "  new text  ") ∧
    (saveTaskEdit (editTask oneTaskApp 5 (.element .noBlur)) 5 "   ").tasks =
      (editTask oneTaskApp 5 (.element .noBlur)).tasks ∧
    (saveTaskEdit (editTask oneTaskApp 5 (.element .noBlur)) 5 "   ").editingTaskId = none :=
  ⟨by decide, by decide, by decide,
    ((saveTaskEdit_commit oneTaskApp 5 "  new text  " (by decide)).2.2.2.2.1 (by decide)).1,
    (saveTaskEdit_commit (editTask oneTaskApp 5 (.element .noBlur)) 5 "   "
      (by decide)).2.2.2.2.2 (by decide),
    (saveTaskEdit_commit (editTask oneTaskApp 5 (.element .noBlur)) 5 "   " (by decide)).1⟩

/-! ## The edit session -/

theorem handleTaskBlur_editingTaskId (app : TodoApp) (taskId : Option Int) (text : String) :
    (handleTaskBlur app taskId text).editingTaskId = none := by
  cases taskId <;> rfl

theorem handleTaskBlur_ids (app : TodoApp) (taskId : Option Int) (text : String) :
    ids (handleTaskBlur app taskId text).tasks = ids app.tasks := by
  cases taskId with
  | none => rfl
  | some j =>
    show ids (saveTaskEdit app j text).tasks = ids app.tasks
    rw [saveTaskEdit_tasks]
    split
    · exact modifyFirst_map (fun task => task.id) (hasId j) (setText (jsTrim text))
        (fun _ => rfl) _
    · rfl

theorem editTask_of_editing (app : TodoApp) (a : Int) (d : EditTarget)
    (h : app.editingTaskId = some a) : editTask app a d = app := by
  simp [editTask, h]

theorem editTask_quiet (app : TodoApp) (a : Int) (d : EditTarget)
    (h : app.editingTaskId ≠ some a) (hd : d = .missing ∨ d = .element .noBlur) :
    editTask app a d = { app with editingTaskId := some a } := by
  rcases hd with hd | hd <;> simp [editTask, h, hd]

theorem editTask_blur (app : TodoApp) (a : Int) (j : Option Int) (text : String)
    (h : app.editingTaskId ≠ some a) :
    editTask app a (.element (.blur j text)) =
      handleTaskBlur { app with editingTaskId := some a } j text := by
  simp [editTask, h]

theorem editTask_slot (app : TodoApp) (a : Int) (d : EditTarget) :
    (editTask app a d).editingTaskId = some a ∨ (editTask app a d).editingTaskId = none := by
  by_cases h : app.editingTaskId = some a
  · left
    rw [editTask_of_editing app a d h]
    exact h
  · match d with
    | .missing => left; rw [editTask_quiet app a _ h (Or.inl rfl)]
    | .element .noBlur => left; rw [editTask_quiet app a _ h (Or.inr rfl)]
    | .element (.blur j text) =>
      right
      rw [editTask_blur app a j text h]
      exact handleTaskBlur_editingTaskId _ _ _

/-- C7 (as the code behaves): `editTask a` followed by `editTask b` with `b` different from
`a` never leaves the edit-session id equal to `a`. The second call assigns `b`; the id stays
`b` when focusing the element of `b` sends no `blur` to an element in edit mode (or there is
no element), and ends as `none` when it does, because the `blur` listener commits that edit
through `saveTaskEdit`. `editTask` is a no-op only for the id already in the slot. -/
theorem editTask_takes_over (app : TodoApp) (a b : Int) (d1 d2 : EditTarget) (hab : b ≠ a) :
    (editTask (editTask app a d1) b d2).editingTaskId ≠ some a ∧
    (d2 = .missing ∨ d2 = .element .noBlur →
      (editTask (editTask app a d1) b d2).editingTaskId = some b) ∧
    (∀ j text, d2 = .element (.blur j text) →
      (editTask (editTask app a d1) b d2).editingTaskId = none) ∧
    (app.editingTaskId = some a → editTask app a d1 = app) := by
  have hne : (editTask app a d1).editingTaskId ≠ some b := by
    rcases editTask_slot app a d1 with h | h <;> rw [h]
    · intro hc
      exact hab (Option.some.inj hc).symm
    · simp
  have hquiet : d2 = .missing ∨ d2 = .element .noBlur →
      (editTask (editTask app a d1) b d2).editingTaskId = some b := by
    intro hd
    rw [editTask_quiet _ b d2 hne hd]
  have hblur : ∀ j text, d2 = .element (.blur j text) →
      (editTask (editTask app a d1) b d2).editingTaskId = none := by
    intro j text hd
    rw [hd, editTask_blur _ b j text hne]
    exact handleTaskBlur_editingTaskId _ _ _
  refine ⟨?_, hquiet, hblur, editTask_of_editing app a d1⟩
  match d2, hquiet, hblur with
  | .missing, hq, _ =>
    rw [hq (Or.inl rfl)]
    intro hc
    exact hab (Option.some.inj hc)
  | .element .noBlur, hq, _ =>
    rw [hq (Or.inr rfl)]
    intro hc
    exact hab (Option.some.inj hc)
  | .element (.blur j text), _, hb =>
    rw [hb j text rfl]
    simp

theorem editTask_takes_over_witness :
    (2 : Int) ≠ 1 ∧
    (editTask (editTask twoTaskApp 1 (.element .noBlur)) 2
      (.element (.blur (some 1) "buy milk"))).editingTaskId ≠ some 1 ∧
    (editTask (editTask twoTaskApp 1 (.element .noBlur)) 2
      (.element (.blur (some 1) "buy milk"))).editingTaskId = none ∧
    (editTask (editTask twoTaskApp 1 (.element .noBlur)) 2 .missing).editingTaskId = some 2 :=
  ⟨by decide,
    (editTask_takes_over twoTaskApp 1 2 (.element .noBlur)
      (.element (.blur (some 1) "buy milk")) (by decide)).1,
    (editTask_takes_over twoTaskApp 1 2 (.element .noBlur)
      (.element (.blur (some 1) "buy milk")) (by decide)).2.2.1 (some 1) "buy milk" rfl,
    (editTask_takes_over twoTaskApp 1 2 (.element .noBlur) .missing (by decide)).2.1
      (Or.inl rfl)⟩

/-- C7 fails as stated: both tasks are on screen; `editTask 1` puts task 1 in edit mode, then
`editTask 2` assigns the slot and focuses the element of task 2, the element of task 1 gets
its `blur`, the listener calls `saveTaskEdit 1`, and the edit-session id ends as `none`, not
1. Without that `blur` it ends as 2, not 1. -/
theorem editTask_second_call_not_noop :
    (editTask twoTaskApp 1 (.element .noBlur)).editingTaskId = some 1 ∧
    (editTask (editTask twoTaskApp 1 (.element .noBlur)) 2
      (.element (.blur (some 1) "buy milk"))).editingTaskId = none ∧
    ¬ (editTask (editTask twoTaskApp 1 (.element .noBlur)) 2
      (.element (.blur (some 1) "buy milk"))).editingTaskId = some 1 ∧
    (editTask (editTask twoTaskApp 1 (.element .noBlur)) 2
      (.element .noBlur)).editingTaskId = some 2 := by
  decide

/-! ## Deleting -/

theorem removeTask_tasks (app : TodoApp) (i : Int) :
    (removeTask app i).tasks = app.tasks.filter (fun task => task.id != i) := rfl

theorem deleteTask_tasks (app : TodoApp) (i : Int) (found : Bool) :
    (deleteTask app i found).tasks = app.tasks := by
  unfold deleteTask
  split <;> rfl

theorem any_hasId_iff (l : List Task) (i : Int) :
    l.any (fun task => task.id == i) = true ↔ i ∈ ids l := by
  simp only [ids, List.any_eq_true, List.mem_map, beq_iff_eq]

theorem not_mem_ids_filter (l : List Task) (i : Int) :
    i ∉ ids (l.filter (fun task => task.id != i)) := by
  simp [ids, List.mem_filter]

theorem filter_filter_ne (l : List Task) (i : Int) :
    (l.filter (fun task => task.id != i)).filter (fun task => task.id != i) =
      l.filter (fun task => task.id != i) := by
  simp [List.filter_filter]

/-- C4 (as the code behaves): `deleteTask i` leaves the collection as it is when it returns;
when `querySelector` finds an element with `data-id` `i` in the document it queues the
removal (run 300 ms later by the timer), otherwise it does nothing. When the queued removal
runs, no task with id `i` remains and the tasks with another id are kept in order; a second
removal of `i` is a no-op: the collection and the total count are those after the first
removal. -/
theorem deleteTask_deferred (app : TodoApp) (i : Int) :
    (∀ found, (deleteTask app i found).tasks = app.tasks) ∧
    (deleteTask app i true).timers = app.timers ++ [i] ∧
    deleteTask app i false = app ∧
    (removeTask app i).tasks = app.tasks.filter (fun task => task.id != i) ∧
    i ∉ ids (removeTask app i).tasks ∧
    (removeTask (removeTask app i) i).tasks = (removeTask app i).tasks ∧
    totalTasks (removeTask (removeTask app i) i) = totalTasks (removeTask app i) ∧
    (app.timers = [] →
      (runTimer (deleteTask app i true)).tasks =
        app.tasks.filter (fun task => task.id != i) ∧
      ∀ found, (runTimer (runTimer (deleteTask (deleteTask app i true) i found))).tasks =
        (runTimer (deleteTask app i true)).tasks) := by
  refine ⟨deleteTask_tasks app i, rfl, rfl, rfl, ?_, ?_, ?_, ?_⟩
  · rw [removeTask_tasks]
    exact not_mem_ids_filter _ _
  · rw [removeTask_tasks, removeTask_tasks, filter_filter_ne]
  · simp only [totalTasks, removeTask_tasks, filter_filter_ne]
  · intro ht
    have h1 : deleteTask app i true = { app with timers := [i] } := by
      simp [deleteTask, ht]
    refine ⟨?_, ?_⟩
    · rw [h1]
      rfl
    · intro found
      rw [h1]
      cases found <;>
        simp [deleteTask, runTimer, removeTask, render, saveToStorage, List.filter_filter]

theorem deleteTask_deferred_witness :
    oneTaskApp.timers = [] ∧
    (deleteTask oneTaskApp 5 true).timers = [5] ∧
    (runTimer (deleteTask oneTaskApp 5 true)).tasks = [] ∧
    (runTimer (runTimer (deleteTask (deleteTask oneTaskApp 5 true) 5 true))).tasks =
      (runTimer (deleteTask oneTaskApp 5 true)).tasks ∧
    deleteTask oneTaskApp 5 false = oneTaskApp :=
  ⟨by decide, by decide, by decide,
    ((deleteTask_deferred oneTaskApp 5).2.2.2.2.2.2.2 (by decide)).2 true,
    (deleteTask_deferred oneTaskApp 5).2.2.1⟩

/-- C4 fails as stated: the element of task 5 is on screen and `deleteTask 5` returns with
the task of id 5 still in the collection (the removal is only queued), the total count still
being 1. -/
theorem deleteTask_not_immediate :
    (5 : Int) ∈ ids oneTaskApp.tasks ∧
    (5 : Int) ∈ ids (deleteTask oneTaskApp 5 true).tasks ∧
    (deleteTask oneTaskApp 5 true).tasks = oneTaskApp.tasks ∧
    totalTasks (deleteTask oneTaskApp 5 true) = 1 ∧
    (deleteTask oneTaskApp 5 true).timers = [5] := by
  decide

/-! ## Uniqueness of ids -/

theorem ids_modifyFirst (p : Task → Bool) (f : Task → Task) (hf : ∀ t, (f t).id = t.id)
    (l : List Task) : ids (modifyFirst p f l) = ids l :=
  modifyFirst_map (fun task => task.id) p f hf l

theorem ids_filter_sublist (p : Task → Bool) (l : List Task) :
    (ids (l.filter p)).Sublist (ids l) :=
  (List.filter_sublist l).map _

theorem saveTaskEdit_ids (app : TodoApp) (i : Int) (newText : String) :
    ids (saveTaskEdit app i newText).tasks = ids app.tasks := by
  rw [saveTaskEdit_tasks]
  split
  · exact ids_modifyFirst (hasId i) (setText (jsTrim newText)) (fun _ => rfl) _
  · rfl

/-- C9 (as the code behaves): pairwise distinct ids are kept by `toggleTask`, `deleteTask`,
the queued removal, `saveTaskEdit`, `editTask`, `cancelTaskEdit` and `setFilter`; `addTask`
keeps them when the clock value `Date.now()` it uses as the id differs from every id already
present (and when the input is blank, where nothing is added). -/
theorem ids_nodup_preserved (app : TodoApp) (h : (ids app.tasks).Nodup) :
    (∀ now iso, now ∉ ids app.tasks → (ids (addTask app now iso).tasks).Nodup) ∧
    (∀ now iso, jsTrim app.taskInput = "" → (ids (addTask app now iso).tasks).Nodup) ∧
    (∀ now iso, jsTrim app.taskInput ≠ "" →
      ids (addTask app now iso).tasks = now :: ids app.tasks) ∧
    (∀ i, (ids (toggleTask app i).tasks).Nodup) ∧
    (∀ i found, (ids (deleteTask app i found).tasks).Nodup) ∧
    (∀ i, (ids (removeTask app i).tasks).Nodup) ∧
    (ids (runTimer app).tasks).Nodup ∧
    (∀ i newText, (ids (saveTaskEdit app i newText).tasks).Nodup) ∧
    (∀ i target, (ids (editTask app i target).tasks).Nodup) ∧
    (ids (cancelTaskEdit app).tasks).Nodup ∧
    (∀ mode, (ids (setFilter app mode).tasks).Nodup) := by
  have hadd : ∀ now iso, jsTrim app.taskInput ≠ "" →
      ids (addTask app now iso).tasks = now :: ids app.tasks := by
    intro now iso hne
    have ht : strTruthy (jsTrim app.taskInput) = true := (strTruthy_iff _).mpr hne
    simp [addTask, ht, render, saveToStorage, ids]
  have hblank : ∀ now iso, jsTrim app.taskInput = "" → addTask app now iso = app := by
    intro now iso he
    simp [addTask, he, strTruthy]
  refine ⟨?_, ?_, hadd, ?_, ?_, ?_, ?_, ?_, ?_, h, fun _ => h⟩
  · intro now iso hnew
    by_cases he : jsTrim app.taskInput = ""
    · rw [hblank now iso he]
      exact h
    · rw [hadd now iso he]
      exact List.nodup_cons.mpr ⟨hnew, h⟩
  · intro now iso he
    rw [hblank now iso he]
    exact h
  · intro i
    rw [toggleTask_tasks, ids_modifyFirst (hasId i) flipCompleted (fun _ => rfl)]
    exact h
  · intro i found
    rw [deleteTask_tasks]
    exact h
  · intro i
    rw [removeTask_tasks]
    exact h.sublist (ids_filter_sublist _ _)
  · unfold runTimer
    split
    · exact h
    · rw [removeTask_tasks]
      exact h.sublist (ids_filter_sublist _ _)
  · intro i newText
    rw [saveTaskEdit_ids]
    exact h
  · intro i target
    have hids : ids (editTask app i target).tasks = ids app.tasks := by
      by_cases he : app.editingTaskId = some i
      · rw [editTask_of_editing app i target he]
      · match target with
        | .missing => rw [editTask_quiet app i _ he (Or.inl rfl)]
        | .element .noBlur => rw [editTask_quiet app i _ he (Or.inr rfl)]
        | .element (.blur j text) => rw [editTask_blur app i j text he, handleTaskBlur_ids]
    rw [hids]
    exact h

theorem ids_nodup_preserved_witness :
    (ids oneTaskApp.tasks).Nodup ∧ (9 : Int) ∉ ids oneTaskApp.tasks ∧
    (ids (addTask oneTaskApp 9 "t").tasks).Nodup ∧
    ids (addTask oneTaskApp 9 "t").tasks = [9, 5] ∧
    (ids (toggleTask oneTaskApp 5).tasks).Nodup ∧
    (ids (saveTaskEdit oneTaskApp 5 "x").tasks).Nodup :=
  ⟨by decide, by decide,
    (ids_nodup_preserved oneTaskApp (by decide)).1 9 "t" (by decide),
    by decide,
    (ids_nodup_preserved oneTaskApp (by decide)).2.2.2.1 5,
    (ids_nodup_preserved oneTaskApp (by decide)).2.2.2.2.2.2.2.1 5 "x"⟩

/-- C9 fails as stated: the ids of the collection are pairwise distinct, `addTask` runs with a
non-blank input while `Date.now()` is 5, the id of the task already present, and the result
holds two tasks with id 5. -/
theorem addTask_duplicate_id :
    (ids oneTaskApp.tasks).Nodup ∧
    jsTrim oneTaskApp.taskInput = "walk dog" ∧
    ids (addTask oneTaskApp 5 "1970-01-01T00:00:00.005Z").tasks = [5, 5] ∧
    ¬ (ids (addTask oneTaskApp 5 "1970-01-01T00:00:00.005Z").tasks).Nodup := by
  decide

/-! ## Loading -/

/-- C8 (as the code behaves): `loadTasks` gives the empty array, without an error, when the
stored item is absent or is JSON text of a falsy value (`null`, `false`, a zero, `""`); when
the stored string is not JSON text, the `SyntaxError` of `JSON.parse` comes out of the
constructor; when it is JSON text of any other value, that value becomes `tasks` as parsed. -/
theorem loadTasks_cases (s : String) :
    loadTasks none = .ok (.arr []) ∧
    (∀ e, jsonParse s = .error e → loadTasks (some s) = .error e) ∧
    (∀ v, jsonParse s = .ok v → v.truthy = true → loadTasks (some s) = .ok v) ∧
    (∀ v, jsonParse s = .ok v → v.truthy = false → loadTasks (some s) = .ok (.arr [])) ∧
    (∀ items, jsonParse s = .ok (.arr items) → loadTasks (some s) = .ok (.arr items)) := by
  refine ⟨rfl, ?_, ?_, ?_, ?_⟩
  · intro e h
    simp [loadTasks, h]
  · intro v h ht
    simp [loadTasks, h, ht]
  · intro v h ht
    simp [loadTasks, h, ht]
  · intro items h
    simp [loadTasks, h, JSValue.truthy]

theorem loadTasks_cases_witness :
    jsonParse "[\x7b\"id\":5" = .error .syntaxError ∧
    loadTasks (some "[\x7b\"id\":5") = .error .syntaxError ∧
    jsonParse "false" = .ok (.bool false) ∧
    loadTasks (some "false") = .ok (.arr []) ∧
    jsonParse "[true]" = .ok (.arr [.bool true]) ∧
    loadTasks (some "[true]") = .ok (.arr [.bool true]) :=
  ⟨rfl, (loadTasks_cases "[\x7b\"id\":5").2.1 .syntaxError rfl,
    rfl, (loadTasks_cases "false").2.2.2.1 (.bool false) rfl rfl,
    rfl, (loadTasks_cases "[true]").2.2.2.2 [.bool true] rfl⟩

/-- C8 fails as stated: for the stored string `not json` the constructor's load raises the
`SyntaxError` of `JSON.parse`, and for the stored string `{}`, which is no task collection,
the result is the parsed object, not an empty collection. -/
theorem loadTasks_corrupt_throws :
    loadTasks (some "not json") = .error .syntaxError ∧
    loadTasks (some "\x7b\x7d") = .ok (.obj []) :=
  ⟨rfl, rfl⟩

end TodoList
